import Mathlib

/-!
Shallow embedding of the izwi-audio engine core: the request scheduler
(`src/crates/izwi-core/src/engine/scheduler.rs`) and the paged KV cache
manager (`src/crates/izwi-core/src/engine/kv_cache.rs`).

Modelling conventions:
* `usize` / `u64` counters become `Nat`; Rust's `saturating_sub` becomes
  truncated `Nat` subtraction (which is exactly saturating subtraction).
* Modelled from the spec: the `engine::types` module is not part of the
  sources; per the spec's data model, `RequestId` is a caller-chosen
  string, `BlockId` an index into the block pool, `SequenceId` a monotone
  integer, `Priority` a totally ordered integer, and arrival times are
  values of a monotone clock (modelled as `Nat`).
* Rust `Vec` and `VecDeque` become `List` (push_back = append at the
  right, pop_front = head).
* Rust `HashMap` becomes an association list with unique keys; `remove`
  is filtering the key out, `insert`-after-miss is appending, and
  iteration order is the list order (a deterministic stand-in for the
  map's iteration order).
* The scheduler's two waiting queues (FCFS `VecDeque` and the priority
  `BinaryHeap`) are represented by a single list `waiting` in pop order:
  for FCFS this is literally the FIFO order; for the priority policy it
  is the heap's pop order.  `peek` is the head, `pop_from_waiting` drops
  the head, and `retain` is `filter`.  The heap's comparator itself is
  embedded separately as `PriorityRequest.cmp`.
-/

/-! ## Basic types (engine::types, modelled from the spec) -/

abbrev RequestId : Type := String

abbrev BlockId : Type := Nat

abbrev SequenceId : Type := Nat

abbrev Priority : Type := Int

/-! ## Association-list helpers (model of `HashMap`) -/

/-- Lookup in an association list (model of `HashMap::get`). -/
def lookupA {α : Type} (k : RequestId) : List (RequestId × α) → Option α
  | [] => none
  | (k', v) :: rest => if k' = k then some v else lookupA k rest

/-- Remove a key (model of `HashMap::remove`'s effect on the map). -/
def removeA {α : Type} (k : RequestId) (l : List (RequestId × α)) :
    List (RequestId × α) :=
  l.filter (fun p => decide (p.1 ≠ k))

/-- Replace the value at a key that is present (model of `get_mut`). -/
def updateA {α : Type} (k : RequestId) (v : α) (l : List (RequestId × α)) :
    List (RequestId × α) :=
  l.map (fun p => if p.1 = k then (k, v) else p)

/-- `entry(k).or_insert_with(Vec::new).extend(ids)`: append to the entry,
creating it when absent. -/
def extendEntry (k : RequestId) (ids : List BlockId)
    (l : List (RequestId × List BlockId)) : List (RequestId × List BlockId) :=
  if (lookupA k l).isSome then
    l.map (fun p => if p.1 = k then (p.1, p.2 ++ ids) else p)
  else
    l ++ [(k, ids)]

/-! ## KV cache (`kv_cache.rs`) -/

/-- `KVCacheConfig`. -/
structure KVCacheConfig where
  num_layers : Nat
  num_heads : Nat
  head_dim : Nat
  block_size : Nat
  max_blocks : Nat
  dtype_bytes : Nat
deriving DecidableEq

/-- `KVCacheConfig::default()`. -/
def KVCacheConfig.default : KVCacheConfig :=
  { num_layers := 24, num_heads := 16, head_dim := 64,
    block_size := 16, max_blocks := 1024, dtype_bytes := 2 }

/-- `KVCacheConfig::blocks_for_tokens`: `(num_tokens + block_size - 1) / block_size`. -/
def KVCacheConfig.blocks_for_tokens (c : KVCacheConfig) (num_tokens : Nat) : Nat :=
  (num_tokens + c.block_size - 1) / c.block_size

/-- `KVBlock`. -/
structure KVBlock where
  id : BlockId
  num_tokens : Nat
  ref_count : Nat
  content_hash : Option Nat
deriving DecidableEq

/-- `KVBlock::new`. -/
def KVBlock.new (id : BlockId) : KVBlock :=
  { id := id, num_tokens := 0, ref_count := 1, content_hash := none }

/-- `KVBlock::reset`. -/
def KVBlock.reset (b : KVBlock) : KVBlock :=
  { b with num_tokens := 0, ref_count := 1, content_hash := none }

instance : Inhabited KVBlock := ⟨KVBlock.new 0⟩

/-- `BlockAllocator`.  `free_list` front = `pop_front` end. -/
structure BlockAllocator where
  config : KVCacheConfig
  blocks : List KVBlock
  free_list : List BlockId
  num_allocated : Nat
deriving DecidableEq

/-- `BlockAllocator::new`. -/
def BlockAllocator.new (config : KVCacheConfig) : BlockAllocator :=
  { config := config
    blocks := (List.range config.max_blocks).map KVBlock.new
    free_list := List.range config.max_blocks
    num_allocated := 0 }

/-- `BlockAllocator::can_allocate`. -/
def BlockAllocator.can_allocate (a : BlockAllocator) (n : Nat) : Bool :=
  decide (n ≤ a.free_list.length)

/-- `self.blocks[id].reset()` on a `Vec`: out of range leaves the vector
unchanged (in the source, ids handed out by the free list are always in
range). -/
def resetBlockAt (blocks : List KVBlock) (id : BlockId) : List KVBlock :=
  blocks.set id (KVBlock.reset (blocks.getD id default))

/-- The `for _ in 0..n { if let Some(id) = free_list.pop_front() ... }`
loop inside `BlockAllocator::allocate`, threading the allocator state and
the accumulated id vector. -/
def allocLoop : Nat → BlockAllocator → List BlockId → BlockAllocator × List BlockId
  | 0, a, acc => (a, acc)
  | n + 1, a, acc =>
    match a.free_list with
    | [] => allocLoop n a acc
    | id :: rest =>
      allocLoop n
        { a with
          free_list := rest
          blocks := resetBlockAt a.blocks id
          num_allocated := a.num_allocated + 1 }
        (acc ++ [id])

/-- `BlockAllocator::allocate`: all-or-nothing; returns the new state and
`Some` ids on success, the old state and `none` otherwise. -/
def BlockAllocator.allocate (a : BlockAllocator) (n : Nat) :
    BlockAllocator × Option (List BlockId) :=
  if a.can_allocate n then
    let (a', ids) := allocLoop n a []
    (a', some ids)
  else
    (a, none)

/-- `BlockAllocator::free`. -/
def BlockAllocator.free (a : BlockAllocator) (block_id : BlockId) : BlockAllocator :=
  if block_id < a.blocks.length then
    let b := a.blocks.getD block_id default
    let b' := { b with ref_count := b.ref_count - 1 }
    let a' := { a with blocks := a.blocks.set block_id b' }
    if b'.ref_count = 0 then
      { a' with
        free_list := a'.free_list ++ [block_id]
        num_allocated := a'.num_allocated - 1 }
    else
      a'
  else
    a

/-- `BlockAllocator::free_blocks`. -/
def BlockAllocator.free_blocks (a : BlockAllocator) (ids : List BlockId) :
    BlockAllocator :=
  ids.foldl BlockAllocator.free a

/-- `BlockAllocator::num_free`. -/
def BlockAllocator.num_free (a : BlockAllocator) : Nat :=
  a.free_list.length

/-- `KVCacheManager`. -/
structure KVCacheManager where
  config : KVCacheConfig
  allocator : BlockAllocator
  request_blocks : List (RequestId × List BlockId)
  block_table : List (RequestId × List BlockId)
deriving DecidableEq

/-- `KVCacheManager::new`. -/
def KVCacheManager.new (config : KVCacheConfig) : KVCacheManager :=
  { config := config
    allocator := BlockAllocator.new config
    request_blocks := []
    block_table := [] }

/-- `KVCacheManager::can_allocate`. -/
def KVCacheManager.can_allocate (m : KVCacheManager) (n : Nat) : Bool :=
  m.allocator.can_allocate n

/-- `KVCacheManager::allocate`: returns the new manager and the newly
appended ids (empty on failure). -/
def KVCacheManager.allocate (m : KVCacheManager) (request_id : RequestId)
    (num_blocks : Nat) : KVCacheManager × List BlockId :=
  match m.allocator.allocate num_blocks with
  | (alloc', some block_ids) =>
    ({ m with
        allocator := alloc'
        request_blocks := extendEntry request_id block_ids m.request_blocks
        block_table := extendEntry request_id block_ids m.block_table },
      block_ids)
  | (_, none) => (m, [])

/-- `KVCacheManager::extend` (alias of `allocate`). -/
def KVCacheManager.extend (m : KVCacheManager) (request_id : RequestId)
    (additional_blocks : Nat) : KVCacheManager × List BlockId :=
  m.allocate request_id additional_blocks

/-- `KVCacheManager::free`. -/
def KVCacheManager.free (m : KVCacheManager) (request_id : RequestId) :
    KVCacheManager :=
  let m' :=
    match lookupA request_id m.request_blocks with
    | some block_ids =>
      { m with
        request_blocks := removeA request_id m.request_blocks
        allocator := m.allocator.free_blocks block_ids }
    | none => m
  { m' with block_table := removeA request_id m'.block_table }

/-! ## Scheduler (`scheduler.rs`) -/

/-- `SchedulingPolicy`. -/
inductive SchedulingPolicy where
  | FCFS
  | Priority
deriving DecidableEq

/-- `SchedulerConfig`. -/
structure SchedulerConfig where
  max_batch_size : Nat
  max_tokens_per_step : Nat
  policy : SchedulingPolicy
  enable_chunked_prefill : Bool
  chunked_prefill_threshold : Nat
  enable_preemption : Bool
deriving DecidableEq

/-- `PriorityRequest` (the priority-heap element; `arrival_time` is the
monotone `Instant`, modelled as `Nat`). -/
structure PriorityRequest where
  request_id : RequestId
  priority : Priority
  arrival_time : Nat
deriving DecidableEq

/-- `impl Ord for PriorityRequest`: higher priority first, then earlier
arrival time is greater; equal on both compares `Equal`. -/
def PriorityRequest.cmp (a b : PriorityRequest) : Ordering :=
  match compare a.priority b.priority with
  | Ordering.eq => compare b.arrival_time a.arrival_time
  | ord => ord

/-- `ScheduledRequest`. -/
structure ScheduledRequest where
  request_id : RequestId
  sequence_id : SequenceId
  num_tokens : Nat
  is_prefill : Bool
  block_ids : List BlockId
  num_computed_tokens : Nat
deriving DecidableEq

/-- `ScheduleResult`. -/
structure ScheduleResult where
  decode_requests : List ScheduledRequest
  prefill_requests : List ScheduledRequest
  preempted_requests : List RequestId
  total_tokens : Nat
  blocks_allocated : Nat
deriving DecidableEq

/-- `ScheduleResult::empty`. -/
def ScheduleResult.empty : ScheduleResult :=
  { decode_requests := [], prefill_requests := [], preempted_requests := [],
    total_tokens := 0, blocks_allocated := 0 }

/-- `RequestMetadata`. -/
structure RequestMetadata where
  request_id : RequestId
  sequence_id : SequenceId
  priority : Priority
  arrival_time : Nat
  total_prompt_tokens : Nat
  max_tokens : Nat
deriving DecidableEq

/-- `RunningRequest`. -/
structure RunningRequest where
  request_id : RequestId
  sequence_id : SequenceId
  num_tokens_processed : Nat
  num_tokens_generated : Nat
  block_ids : List BlockId
  prefill_complete : Bool
deriving DecidableEq

/-- `Scheduler`.  `waiting` is the active waiting queue in pop order (see
the module comment); `running` and `requests` model the two `HashMap`s as
association lists iterated in list order. -/
structure Scheduler where
  config : SchedulerConfig
  waiting : List RequestId
  running : List (RequestId × RunningRequest)
  requests : List (RequestId × RequestMetadata)
  next_sequence_id : SequenceId
deriving DecidableEq

/-- `Scheduler::blocks_needed_for_tokens`: the source ignores the cache
manager's configuration and hard-codes `block_size = 16`. -/
def blocksNeededForTokens (num_tokens : Nat) : Nat :=
  (num_tokens + 16 - 1) / 16

/-- The `ScheduledRequest` pushed for a decode in Phase 1 of
`Scheduler::schedule`. -/
def mkDecodeScheduled (rid : RequestId) (r : RunningRequest) : ScheduledRequest :=
  { request_id := rid
    sequence_id := r.sequence_id
    num_tokens := 1
    is_prefill := false
    block_ids := r.block_ids
    num_computed_tokens := r.num_tokens_processed }

/-- Phase 1 of `Scheduler::schedule` (decode scheduling): iterate the
running map, skipping requests still in prefill and requests whose extra
blocks cannot be allocated; note the source only *checks* `can_allocate`
and never allocates here, and never mutates `running` or the cache.
Returns the accumulated result and the remaining token and batch budgets. -/
def phase1 (kv : KVCacheManager) :
    List (RequestId × RunningRequest) → ScheduleResult → Nat → Nat →
    ScheduleResult × Nat × Nat
  | [], res, budget, batch => (res, budget, batch)
  | (rid, r) :: rest, res, budget, batch =>
    if batch = 0 ∨ budget = 0 then (res, budget, batch)
    else if !r.prefill_complete then phase1 kv rest res budget batch
    else
      let num_tokens := 1
      let blocks_needed := blocksNeededForTokens (r.num_tokens_processed + num_tokens)
      if blocks_needed > r.block_ids.length ∧
          ¬ (kv.can_allocate (blocks_needed - r.block_ids.length) = true) then
        phase1 kv rest res budget batch
      else
        let res' := { res with
          decode_requests := res.decode_requests ++ [mkDecodeScheduled rid r]
          total_tokens := res.total_tokens + num_tokens }
        phase1 kv rest res' (budget - num_tokens) (batch - 1)

/-- The `RunningRequest` created when Phase 2 admits a request. -/
def mkRunningState (rid : RequestId) (md : RequestMetadata) (num_tokens : Nat)
    (block_ids : List BlockId) : RunningRequest :=
  { request_id := rid
    sequence_id := md.sequence_id
    num_tokens_processed := 0
    num_tokens_generated := 0
    block_ids := block_ids
    prefill_complete := decide (md.total_prompt_tokens ≤ num_tokens) }

/-- The `ScheduledRequest` pushed for a prefill in Phase 2. -/
def mkPrefillScheduled (rid : RequestId) (md : RequestMetadata) (num_tokens : Nat)
    (block_ids : List BlockId) : ScheduledRequest :=
  { request_id := rid
    sequence_id := md.sequence_id
    num_tokens := num_tokens
    is_prefill := true
    block_ids := block_ids
    num_computed_tokens := 0 }

/-- The token count Phase 2 ingests for a prefill this step: the full
prompt, clipped to `chunked_prefill_threshold` when chunked prefill is
enabled and the prompt exceeds it, and clipped to the remaining budget. -/
def prefillTokens (cfg : SchedulerConfig) (md : RequestMetadata) (budget : Nat) : Nat :=
  let want :=
    if cfg.enable_chunked_prefill = true ∧
        md.total_prompt_tokens > cfg.chunked_prefill_threshold then
      cfg.chunked_prefill_threshold
    else
      md.total_prompt_tokens
  min want budget

/-- Phase 2 of `Scheduler::schedule` (prefill admission): the
`while remaining_batch > 0 && remaining_budget > 0` loop, recursing on the
waiting queue in pop order.  Returns the result, the remaining waiting
queue, the updated running map, the updated cache manager, and the
remaining budgets. -/
def phase2 (cfg : SchedulerConfig) (requests : List (RequestId × RequestMetadata)) :
    List RequestId → List (RequestId × RunningRequest) → KVCacheManager →
    ScheduleResult → Nat → Nat →
    ScheduleResult × List RequestId × List (RequestId × RunningRequest) ×
      KVCacheManager × Nat × Nat
  | [], running, kv, res, budget, batch => (res, [], running, kv, budget, batch)
  | rid :: rest, running, kv, res, budget, batch =>
    if batch = 0 ∨ budget = 0 then (res, rid :: rest, running, kv, budget, batch)
    else
      match lookupA rid requests with
      | none => phase2 cfg requests rest running kv res budget batch
      | some md =>
        if (lookupA rid running).isSome then
          phase2 cfg requests rest running kv res budget batch
        else
          let num_tokens := prefillTokens cfg md budget
          let blocks_needed := blocksNeededForTokens num_tokens
          if ¬ (kv.can_allocate blocks_needed = true) then
            (res, rid :: rest, running, kv, budget, batch)
          else
            let alloc := kv.allocate rid blocks_needed
            let kv' := alloc.1
            let block_ids := alloc.2
            let res' := { res with
              prefill_requests :=
                res.prefill_requests ++ [mkPrefillScheduled rid md num_tokens block_ids]
              total_tokens := res.total_tokens + num_tokens
              blocks_allocated := res.blocks_allocated + block_ids.length }
            phase2 cfg requests rest
              (running ++ [(rid, mkRunningState rid md num_tokens block_ids)])
              kv' res' (budget - num_tokens) (batch - 1)

/-- `Scheduler::schedule`: Phase 1 then Phase 2; returns the result, the
updated scheduler and the updated cache manager. -/
def Scheduler.schedule (s : Scheduler) (kv : KVCacheManager) :
    ScheduleResult × Scheduler × KVCacheManager :=
  let p1 := phase1 kv s.running ScheduleResult.empty
    s.config.max_tokens_per_step s.config.max_batch_size
  let p2 := phase2 s.config s.requests s.waiting s.running kv p1.1 p1.2.1 p1.2.2
  (p2.1, { s with waiting := p2.2.1, running := p2.2.2.1 }, p2.2.2.2.1)

/-- `Scheduler::update_after_step`. -/
def Scheduler.update_after_step (s : Scheduler) (request_id : RequestId)
    (tokens_processed tokens_generated : Nat) (new_block_ids : List BlockId) :
    Scheduler :=
  match lookupA request_id s.running with
  | none => s
  | some r =>
    let r1 := { r with
      num_tokens_processed := r.num_tokens_processed + tokens_processed
      num_tokens_generated := r.num_tokens_generated + tokens_generated
      block_ids := r.block_ids ++ new_block_ids }
    let r2 :=
      match lookupA request_id s.requests with
      | some md =>
        if md.total_prompt_tokens ≤ r1.num_tokens_processed then
          { r1 with prefill_complete := true }
        else r1
      | none => r1
    { s with running := updateA request_id r2 s.running }

/-- `Scheduler::abort_request`: returns the flag together with the new
scheduler and cache manager states. -/
def Scheduler.abort_request (s : Scheduler) (request_id : RequestId)
    (kv : KVCacheManager) : Bool × Scheduler × KVCacheManager :=
  let waiting' := s.waiting.filter (fun id => decide (id ≠ request_id))
  match lookupA request_id s.running with
  | some r =>
    (true,
      { s with
        waiting := waiting'
        running := removeA request_id s.running
        requests := removeA request_id s.requests },
      kv.free r.request_id)
  | none =>
    (false,
      { s with waiting := waiting', requests := removeA request_id s.requests },
      kv)

/-! ## Derived definitions used by the verification -/

/-- Sum of `num_tokens` over a list of scheduled requests. -/
def sumNumTokens (l : List ScheduledRequest) : Nat :=
  (l.map (fun r => r.num_tokens)).sum

/-- The condition under which Phase 1 emits a decode for a running
request (read off the skip conditions of the source): prefill is
complete, and either no extra blocks are required or the cache reports
that the difference could be allocated. -/
def decodeEmitCond (kv : KVCacheManager) (r : RunningRequest) : Bool :=
  r.prefill_complete &&
    (decide (blocksNeededForTokens (r.num_tokens_processed + 1) ≤ r.block_ids.length) ||
     kv.can_allocate (blocksNeededForTokens (r.num_tokens_processed + 1) - r.block_ids.length))

/-- A block whose metadata has been reset by `KVBlock::reset`:
occupancy 0, refcount 1, fingerprint cleared. -/
def isReset (b : KVBlock) : Prop :=
  b.num_tokens = 0 ∧ b.ref_count = 1 ∧ b.content_hash = none

instance (b : KVBlock) : Decidable (isReset b) := by
  unfold isReset; exact inferInstance

/-- Sequentially reset the blocks at the given indices (the cumulative
effect of the `reset` calls inside `BlockAllocator::allocate`). -/
def resetBlocks (blocks : List KVBlock) (ids : List BlockId) : List KVBlock :=
  ids.foldl resetBlockAt blocks

/-- An operation on the KV cache manager (the public mutating API). -/
inductive MgrOp where
  | alloc (rid : RequestId) (n : Nat)
  | grow (rid : RequestId) (n : Nat)
  | release (rid : RequestId)

/-- Apply one manager operation, keeping only the state. -/
def applyMgrOp (m : KVCacheManager) : MgrOp → KVCacheManager
  | MgrOp.alloc rid n => (m.allocate rid n).1
  | MgrOp.grow rid n => (m.extend rid n).1
  | MgrOp.release rid => m.free rid

/-- Run a sequence of manager operations from a state. -/
def runMgrOps (m : KVCacheManager) (ops : List MgrOp) : KVCacheManager :=
  ops.foldl applyMgrOp m

/-! ## Concrete states used as counterexamples and witnesses -/

/-- A one-block cache configuration. -/
def cfg1 : KVCacheConfig :=
  { num_layers := 1, num_heads := 1, head_dim := 1,
    block_size := 16, max_blocks := 1, dtype_bytes := 2 }

/-- An eight-block cache configuration. -/
def cfg8 : KVCacheConfig :=
  { num_layers := 1, num_heads := 1, head_dim := 1,
    block_size := 16, max_blocks := 8, dtype_bytes := 2 }

/-- A configuration whose block size is 4 (not the hard-coded 16). -/
def cfgBS4 : KVCacheConfig :=
  { num_layers := 1, num_heads := 1, head_dim := 1,
    block_size := 4, max_blocks := 8, dtype_bytes := 2 }

/-- A freshly constructed one-block allocator. -/
def allocFresh1 : BlockAllocator := BlockAllocator.new cfg1

/-- The one-block allocator after a single `free(0)` (block 0 was in the
free list with refcount 1; the call drives the refcount to 0 and pushes
the id onto the free list again). -/
def allocAfterFree : BlockAllocator := allocFresh1.free 0

/-- A fresh eight-block cache manager. -/
def kv0 : KVCacheManager := KVCacheManager.new cfg8

/-- A scheduler configuration with chunked prefill disabled. -/
def scfg : SchedulerConfig :=
  { max_batch_size := 8, max_tokens_per_step := 512,
    policy := SchedulingPolicy.FCFS, enable_chunked_prefill := false,
    chunked_prefill_threshold := 256, enable_preemption := false }

/-- Metadata of a waiting request with a 20-token prompt. -/
def md1 : RequestMetadata :=
  { request_id := ("r1" : String), sequence_id := 0, priority := 0,
    arrival_time := 0, total_prompt_tokens := 20, max_tokens := 4 }

/-- A scheduler holding one waiting request `r1` (20 prompt tokens). -/
def s0 : Scheduler :=
  { config := scfg, waiting := [("r1" : String)], running := [],
    requests := [(("r1" : String), md1)], next_sequence_id := 1 }

/-- A running request at a block boundary: 16 tokens processed in a
single block; the next decode token needs a second block. -/
def r4 : RunningRequest :=
  { request_id := ("d1" : String), sequence_id := 0,
    num_tokens_processed := 16, num_tokens_generated := 0,
    block_ids := [0], prefill_complete := true }

/-- Metadata of the running request `d1`. -/
def md4 : RequestMetadata :=
  { request_id := ("d1" : String), sequence_id := 0, priority := 0,
    arrival_time := 0, total_prompt_tokens := 16, max_tokens := 4 }

/-- A cache manager in which `d1` owns block 0 and blocks 1–7 are free. -/
def kv4 : KVCacheManager :=
  { config := cfg8
    allocator :=
      { config := cfg8
        blocks := (List.range 8).map KVBlock.new
        free_list := [1, 2, 3, 4, 5, 6, 7]
        num_allocated := 1 }
    request_blocks := [(("d1" : String), [0])]
    block_table := [(("d1" : String), [0])] }

/-- A scheduler with the single running request `d1` and nothing waiting. -/
def s4 : Scheduler :=
  { config := scfg, waiting := [], running := [(("d1" : String), r4)],
    requests := [(("d1" : String), md4)], next_sequence_id := 1 }

/-- The running state of `d1` after `update_after_step(d1, 1, 1, [1])`. -/
def rUpd : RunningRequest :=
  { request_id := ("d1" : String), sequence_id := 0,
    num_tokens_processed := 17, num_tokens_generated := 1,
    block_ids := [0, 1], prefill_complete := true }

/-- Two heap entries with equal priority and equal arrival time but
distinct request ids. -/
def pa : PriorityRequest :=
  { request_id := ("a" : String), priority := 1, arrival_time := 0 }

/-- See `pa`. -/
def pb : PriorityRequest :=
  { request_id := ("b" : String), priority := 1, arrival_time := 0 }

/-! ## Helper lemmas -/

theorem lookupA_updateA {α : Type} (k : RequestId) (v : α) (l : List (RequestId × α))
    (r : α) (h : lookupA k l = some r) :
    lookupA k (updateA k v l) = some v := by
  induction l with
  | nil => simp [lookupA] at h
  | cons p rest ih =>
    obtain ⟨k', w⟩ := p
    simp only [updateA, List.map_cons]
    by_cases hk : k' = k
    · rw [if_pos hk]
      simp [lookupA]
    · rw [if_neg hk]
      simp only [lookupA, hk, if_false] at h ⊢
      simp only [updateA] at ih
      exact ih h

theorem lookupA_append_left {α : Type} (k : RequestId) (l l' : List (RequestId × α))
    (r : α) (h : lookupA k l = some r) :
    lookupA k (l ++ l') = some r := by
  induction l with
  | nil => simp [lookupA] at h
  | cons p rest ih =>
    obtain ⟨k', w⟩ := p
    by_cases hk : k' = k
    · simpa [lookupA, hk] using by simpa [lookupA, hk] using h
    · simp [lookupA, hk] at h ⊢
      exact ih h

theorem lookupA_removeA {α : Type} (k : RequestId) (l : List (RequestId × α)) :
    lookupA k (removeA k l) = none := by
  induction l with
  | nil => simp [lookupA, removeA]
  | cons p rest ih =>
    obtain ⟨k', w⟩ := p
    by_cases hk : k' = k
    · simpa [removeA, hk] using ih
    · simpa [removeA, lookupA, hk] using ih

theorem removeA_of_lookupA_none {α : Type} (k : RequestId) (l : List (RequestId × α))
    (h : lookupA k l = none) : removeA k l = l := by
  induction l with
  | nil => simp [removeA]
  | cons p rest ih =>
    obtain ⟨k', w⟩ := p
    by_cases hk : k' = k
    · simp [lookupA, hk] at h
    · simp [lookupA, hk] at h
      simp [removeA, hk] at ih ⊢
      exact ih h

theorem removeA_removeA {α : Type} (k : RequestId) (l : List (RequestId × α)) :
    removeA k (removeA k l) = removeA k l :=
  removeA_of_lookupA_none k (removeA k l) (lookupA_removeA k l)

theorem filter_ne_of_not_mem (k : RequestId) (l : List RequestId) (h : k ∉ l) :
    l.filter (fun id => decide (id ≠ k)) = l := by
  refine List.filter_eq_self.mpr ?_
  intro x hx
  simp only [decide_eq_true_eq]
  intro hxk
  exact h (hxk ▸ hx)

theorem not_mem_filter_ne (k : RequestId) (l : List RequestId) :
    k ∉ l.filter (fun id => decide (id ≠ k)) := by
  intro hmem
  have := List.of_mem_filter hmem
  simp at this

theorem sumNumTokens_append (l₁ l₂ : List ScheduledRequest) :
    sumNumTokens (l₁ ++ l₂) = sumNumTokens l₁ + sumNumTokens l₂ := by
  simp [sumNumTokens]

theorem resetBlockAt_length (blocks : List KVBlock) (id : BlockId) :
    (resetBlockAt blocks id).length = blocks.length := by
  simp [resetBlockAt]

theorem getD_resetBlockAt_self (blocks : List KVBlock) (id : BlockId)
    (h : id < blocks.length) :
    (resetBlockAt blocks id).getD id default = KVBlock.reset (blocks.getD id default) := by
  simp [resetBlockAt, List.getD, List.getElem?_set_self, h]

theorem getD_resetBlockAt_ne (blocks : List KVBlock) (id j : BlockId) (h : id ≠ j) :
    (resetBlockAt blocks id).getD j default = blocks.getD j default := by
  simp [resetBlockAt, List.getD, List.getElem?_set_ne h]

theorem resetBlocks_length : ∀ (ids : List BlockId) (blocks : List KVBlock),
    (resetBlocks blocks ids).length = blocks.length := by
  intro ids
  induction ids with
  | nil => intro blocks; simp [resetBlocks]
  | cons i rest ih =>
    intro blocks
    simpa [resetBlocks, resetBlockAt_length] using ih (resetBlockAt blocks i)

theorem getD_resetBlocks_not_mem : ∀ (ids : List BlockId) (blocks : List KVBlock)
    (j : BlockId), j ∉ ids →
    (resetBlocks blocks ids).getD j default = blocks.getD j default := by
  intro ids
  induction ids with
  | nil => intro blocks j _; simp [resetBlocks]
  | cons i rest ih =>
    intro blocks j hj
    have hji : i ≠ j := fun h => hj (h ▸ List.mem_cons_self i rest)
    have hjr : j ∉ rest := fun h => hj (List.mem_cons_of_mem i h)
    calc (resetBlocks blocks (i :: rest)).getD j default
        = (resetBlocks (resetBlockAt blocks i) rest).getD j default := rfl
      _ = (resetBlockAt blocks i).getD j default := ih _ j hjr
      _ = blocks.getD j default := getD_resetBlockAt_ne blocks i j hji

theorem isReset_reset (b : KVBlock) : isReset (KVBlock.reset b) := by
  simp [isReset, KVBlock.reset]

theorem resetBlocks_isReset : ∀ (ids : List BlockId) (blocks : List KVBlock),
    (∀ id ∈ ids, id < blocks.length) →
    ∀ id ∈ ids, isReset ((resetBlocks blocks ids).getD id default) := by
  intro ids
  induction ids with
  | nil => intro blocks _ id hid; simp at hid
  | cons i rest ih =>
    intro blocks hrange id hid
    have hlen : ∀ id ∈ rest, id < (resetBlockAt blocks i).length := by
      intro x hx
      rw [resetBlockAt_length]
      exact hrange x (List.mem_cons_of_mem i hx)
    rcases List.mem_cons.mp hid with rfl | hmem
    · by_cases hm : id ∈ rest
      · exact ih (resetBlockAt blocks id) hlen id hm
      · have : (resetBlocks blocks (id :: rest)).getD id default
            = (resetBlockAt blocks id).getD id default := by
          calc (resetBlocks blocks (id :: rest)).getD id default
              = (resetBlocks (resetBlockAt blocks id) rest).getD id default := rfl
            _ = (resetBlockAt blocks id).getD id default :=
                getD_resetBlocks_not_mem rest _ id hm
        rw [this, getD_resetBlockAt_self blocks id (hrange id (List.mem_cons_self id rest))]
        exact isReset_reset _
    · exact ih (resetBlockAt blocks i) hlen id hmem

theorem allocLoop_spec : ∀ (n : Nat) (a : BlockAllocator) (acc : List BlockId),
    n ≤ a.free_list.length →
    (allocLoop n a acc).2 = acc ++ a.free_list.take n ∧
    (allocLoop n a acc).1.free_list = a.free_list.drop n ∧
    (allocLoop n a acc).1.num_allocated = a.num_allocated + n ∧
    (allocLoop n a acc).1.blocks = resetBlocks a.blocks (a.free_list.take n) := by
  intro n
  induction n with
  | zero => intro a acc _; simp [allocLoop, resetBlocks]
  | succ n ih =>
    intro a acc h
    obtain ⟨acfg, ablocks, afl, ana⟩ := a
    cases afl with
    | nil => simp at h
    | cons id rest =>
      have h' : n ≤ rest.length := by simpa using Nat.le_of_succ_le_succ h
      have step : allocLoop (n + 1) ⟨acfg, ablocks, id :: rest, ana⟩ acc
          = allocLoop n ⟨acfg, resetBlockAt ablocks id, rest, ana + 1⟩ (acc ++ [id]) := rfl
      obtain ⟨i1, i2, i3, i4⟩ := ih ⟨acfg, resetBlockAt ablocks id, rest, ana + 1⟩ (acc ++ [id]) h'
      refine ⟨?_, ?_, ?_, ?_⟩
      · rw [step, i1]
        simp [List.take_succ_cons]
      · rw [step, i2]
        simp [List.drop_succ_cons]
      · rw [step, i3]
        dsimp only
        omega
      · rw [step, i4]
        simp only [List.take_succ_cons]
        rfl

theorem phase1_spec (kv : KVCacheManager) :
    ∀ (l : List (RequestId × RunningRequest)) (res : ScheduleResult) (budget batch : Nat),
    (phase1 kv l res budget batch).1.total_tokens + (phase1 kv l res budget batch).2.1
        = res.total_tokens + budget
    ∧ (phase1 kv l res budget batch).1.prefill_requests = res.prefill_requests
    ∧ sumNumTokens (phase1 kv l res budget batch).1.decode_requests + res.total_tokens
        = sumNumTokens res.decode_requests + (phase1 kv l res budget batch).1.total_tokens := by
  intro l
  induction l with
  | nil => intro res budget batch; simp [phase1]
  | cons p rest ih =>
    obtain ⟨rid, r⟩ := p
    intro res budget batch
    by_cases h1 : batch = 0 ∨ budget = 0
    · simp [phase1, h1]
    · by_cases h2 : r.prefill_complete = true
      · by_cases h3 : blocksNeededForTokens (r.num_tokens_processed + 1) > r.block_ids.length ∧
            ¬ (kv.can_allocate
              (blocksNeededForTokens (r.num_tokens_processed + 1) - r.block_ids.length) = true)
        · have e : phase1 kv ((rid, r) :: rest) res budget batch
              = phase1 kv rest res budget batch := by
            simp [phase1, h1, h2, h3]
          rw [e]
          exact ih res budget batch
        · have hnp : ¬ ((!r.prefill_complete) = true) := by simp [h2]
          have e : phase1 kv ((rid, r) :: rest) res budget batch
              = phase1 kv rest
                  { res with
                    decode_requests := res.decode_requests ++ [mkDecodeScheduled rid r]
                    total_tokens := res.total_tokens + 1 }
                  (budget - 1) (batch - 1) := by
            simp only [phase1]
            rw [if_neg h1, if_neg hnp, if_neg h3]
          rw [e]
          obtain ⟨i1, i2, i3⟩ := ih
            { res with
              decode_requests := res.decode_requests ++ [mkDecodeScheduled rid r]
              total_tokens := res.total_tokens + 1 }
            (budget - 1) (batch - 1)
          dsimp only at i1 i2 i3
          rw [sumNumTokens_append] at i3
          have hone : sumNumTokens [mkDecodeScheduled rid r] = 1 := by
            simp [sumNumTokens, mkDecodeScheduled]
          rw [hone] at i3
          refine ⟨by omega, by rw [i2], by omega⟩
      · have e : phase1 kv ((rid, r) :: rest) res budget batch
            = phase1 kv rest res budget batch := by
          simp [phase1, h1, h2]
        rw [e]
        exact ih res budget batch

theorem phase2_spec (cfg : SchedulerConfig) (requests : List (RequestId × RequestMetadata)) :
    ∀ (waiting : List RequestId) (running : List (RequestId × RunningRequest))
      (kv : KVCacheManager) (res : ScheduleResult) (budget batch : Nat),
    (phase2 cfg requests waiting running kv res budget batch).1.total_tokens
        + (phase2 cfg requests waiting running kv res budget batch).2.2.2.2.1
        = res.total_tokens + budget
    ∧ (phase2 cfg requests waiting running kv res budget batch).1.decode_requests
        = res.decode_requests
    ∧ sumNumTokens (phase2 cfg requests waiting running kv res budget batch).1.prefill_requests
          + res.total_tokens
        = sumNumTokens res.prefill_requests
          + (phase2 cfg requests waiting running kv res budget batch).1.total_tokens := by
  intro waiting
  induction waiting with
  | nil => intro running kv res budget batch; simp [phase2]
  | cons rid rest ih =>
    intro running kv res budget batch
    by_cases hb : batch = 0 ∨ budget = 0
    · simp [phase2, hb]
    · cases hmd : lookupA rid requests with
      | none =>
        have e : phase2 cfg requests (rid :: rest) running kv res budget batch
            = phase2 cfg requests rest running kv res budget batch := by
          simp [phase2, hb, hmd]
        rw [e]
        exact ih running kv res budget batch
      | some md =>
        by_cases hrun : (lookupA rid running).isSome = true
        · have e : phase2 cfg requests (rid :: rest) running kv res budget batch
              = phase2 cfg requests rest running kv res budget batch := by
            simp [phase2, hb, hmd, hrun]
          rw [e]
          exact ih running kv res budget batch
        · by_cases hca : kv.can_allocate (blocksNeededForTokens (prefillTokens cfg md budget)) = true
          · have e : phase2 cfg requests (rid :: rest) running kv res budget batch
                = phase2 cfg requests rest
                    (running ++ [(rid, mkRunningState rid md (prefillTokens cfg md budget)
                      (kv.allocate rid (blocksNeededForTokens (prefillTokens cfg md budget))).2)])
                    (kv.allocate rid (blocksNeededForTokens (prefillTokens cfg md budget))).1
                    { res with
                      prefill_requests := res.prefill_requests ++
                        [mkPrefillScheduled rid md (prefillTokens cfg md budget)
                          (kv.allocate rid (blocksNeededForTokens (prefillTokens cfg md budget))).2]
                      total_tokens := res.total_tokens + prefillTokens cfg md budget
                      blocks_allocated := res.blocks_allocated +
                        (kv.allocate rid (blocksNeededForTokens (prefillTokens cfg md budget))).2.length }
                    (budget - prefillTokens cfg md budget) (batch - 1) := by
              simp [phase2, hb, hmd, hrun, hca]
            rw [e]
            obtain ⟨i1, i2, i3⟩ := ih
              (running ++ [(rid, mkRunningState rid md (prefillTokens cfg md budget)
                (kv.allocate rid (blocksNeededForTokens (prefillTokens cfg md budget))).2)])
              (kv.allocate rid (blocksNeededForTokens (prefillTokens cfg md budget))).1
              { res with
                prefill_requests := res.prefill_requests ++
                  [mkPrefillScheduled rid md (prefillTokens cfg md budget)
                    (kv.allocate rid (blocksNeededForTokens (prefillTokens cfg md budget))).2]
                total_tokens := res.total_tokens + prefillTokens cfg md budget
                blocks_allocated := res.blocks_allocated +
                  (kv.allocate rid (blocksNeededForTokens (prefillTokens cfg md budget))).2.length }
              (budget - prefillTokens cfg md budget) (batch - 1)
            dsimp only at i1 i2 i3
            rw [sumNumTokens_append] at i3
            have hnt : sumNumTokens [mkPrefillScheduled rid md (prefillTokens cfg md budget)
                (kv.allocate rid (blocksNeededForTokens (prefillTokens cfg md budget))).2]
                = prefillTokens cfg md budget := by
              simp [sumNumTokens, mkPrefillScheduled]
            rw [hnt] at i3
            have hle : prefillTokens cfg md budget ≤ budget := Nat.min_le_right _ _
            refine ⟨by omega, by rw [i2], by omega⟩
          · simp [phase2, hb, hmd, hrun, hca]

theorem phase1_decodes (kv : KVCacheManager) :
    ∀ (l : List (RequestId × RunningRequest)) (res : ScheduleResult) (budget batch : Nat),
    l.length ≤ budget → l.length ≤ batch →
    (phase1 kv l res budget batch).1.decode_requests
      = res.decode_requests ++
          (l.filter (fun p => decodeEmitCond kv p.2)).map (fun p => mkDecodeScheduled p.1 p.2) := by
  intro l
  induction l with
  | nil => intro res budget batch _ _; simp [phase1]
  | cons p rest ih =>
    obtain ⟨rid, r⟩ := p
    intro res budget batch hbud hbat
    simp only [List.length_cons] at hbud hbat
    have h1 : ¬ (batch = 0 ∨ budget = 0) := by omega
    cases hpc : r.prefill_complete with
    | false =>
      have e : phase1 kv ((rid, r) :: rest) res budget batch
          = phase1 kv rest res budget batch := by
        simp only [phase1]
        rw [if_neg h1, if_pos (by simp [hpc])]
      have hcond : decodeEmitCond kv r = false := by simp [decodeEmitCond, hpc]
      rw [e, List.filter_cons_of_neg (by simpa using hcond),
        ih res budget batch (by omega) (by omega)]
    | true =>
      by_cases h3 : blocksNeededForTokens (r.num_tokens_processed + 1) > r.block_ids.length ∧
          ¬ (kv.can_allocate
            (blocksNeededForTokens (r.num_tokens_processed + 1) - r.block_ids.length) = true)
      · have e : phase1 kv ((rid, r) :: rest) res budget batch
            = phase1 kv rest res budget batch := by
          simp only [phase1]
          rw [if_neg h1, if_neg (by simp [hpc]), if_pos h3]
        have hcf : kv.can_allocate
            (blocksNeededForTokens (r.num_tokens_processed + 1) - r.block_ids.length) = false := by
          cases hc : kv.can_allocate
              (blocksNeededForTokens (r.num_tokens_processed + 1) - r.block_ids.length)
          · rfl
          · exact absurd hc h3.2
        have hgt := h3.1
        have hcond : decodeEmitCond kv r = false := by
          simp only [decodeEmitCond, hpc, Bool.true_and, hcf, Bool.or_false]
          simp only [decide_eq_false_iff_not]
          omega
        rw [e, List.filter_cons_of_neg (by simpa using hcond),
          ih res budget batch (by omega) (by omega)]
      · have hnp : ¬ ((!r.prefill_complete) = true) := by simp [hpc]
        have e : phase1 kv ((rid, r) :: rest) res budget batch
            = phase1 kv rest
                { res with
                  decode_requests := res.decode_requests ++ [mkDecodeScheduled rid r]
                  total_tokens := res.total_tokens + 1 }
                (budget - 1) (batch - 1) := by
          simp only [phase1]
          rw [if_neg h1, if_neg hnp, if_neg h3]
        have hcond : decodeEmitCond kv r = true := by
          simp only [decodeEmitCond, hpc, Bool.true_and, Bool.or_eq_true, decide_eq_true_eq]
          rcases not_and_or.mp h3 with hle | hcan
          · exact Or.inl (by omega)
          · exact Or.inr (not_not.mp hcan)
        rw [e, ih _ (budget - 1) (batch - 1) (by omega) (by omega),
          List.filter_cons_of_pos (by simpa using hcond)]
        simp

theorem phase2_preserves_running (cfg : SchedulerConfig)
    (requests : List (RequestId × RequestMetadata)) :
    ∀ (waiting : List RequestId) (running : List (RequestId × RunningRequest))
      (kv : KVCacheManager) (res : ScheduleResult) (budget batch : Nat)
      (id : RequestId) (r : RunningRequest),
    lookupA id running = some r →
    lookupA id (phase2 cfg requests waiting running kv res budget batch).2.2.1 = some r := by
  intro waiting
  induction waiting with
  | nil => intro running kv res budget batch id r h; simpa [phase2] using h
  | cons rid rest ih =>
    intro running kv res budget batch id r h
    by_cases hb : batch = 0 ∨ budget = 0
    · simpa [phase2, hb] using h
    · cases hmd : lookupA rid requests with
      | none =>
        have e : phase2 cfg requests (rid :: rest) running kv res budget batch
            = phase2 cfg requests rest running kv res budget batch := by
          simp [phase2, hb, hmd]
        rw [e]
        exact ih running kv res budget batch id r h
      | some md =>
        by_cases hrun : (lookupA rid running).isSome = true
        · have e : phase2 cfg requests (rid :: rest) running kv res budget batch
              = phase2 cfg requests rest running kv res budget batch := by
            simp [phase2, hb, hmd, hrun]
          rw [e]
          exact ih running kv res budget batch id r h
        · by_cases hca : kv.can_allocate (blocksNeededForTokens (prefillTokens cfg md budget)) = true
          · have e : phase2 cfg requests (rid :: rest) running kv res budget batch
                = phase2 cfg requests rest
                    (running ++ [(rid, mkRunningState rid md (prefillTokens cfg md budget)
                      (kv.allocate rid (blocksNeededForTokens (prefillTokens cfg md budget))).2)])
                    (kv.allocate rid (blocksNeededForTokens (prefillTokens cfg md budget))).1
                    { res with
                      prefill_requests := res.prefill_requests ++
                        [mkPrefillScheduled rid md (prefillTokens cfg md budget)
                          (kv.allocate rid (blocksNeededForTokens (prefillTokens cfg md budget))).2]
                      total_tokens := res.total_tokens + prefillTokens cfg md budget
                      blocks_allocated := res.blocks_allocated +
                        (kv.allocate rid (blocksNeededForTokens (prefillTokens cfg md budget))).2.length }
                    (budget - prefillTokens cfg md budget) (batch - 1) := by
              simp [phase2, hb, hmd, hrun, hca]
            rw [e]
            exact ih _ _ _ _ _ id r (lookupA_append_left id running _ r h)
          · simpa [phase2, hb, hmd, hrun, hca] using h

theorem applyMgrOp_maps_eq (m : KVCacheManager) (op : MgrOp)
    (h : m.request_blocks = m.block_table) :
    (applyMgrOp m op).request_blocks = (applyMgrOp m op).block_table := by
  have key : ∀ (rid : RequestId) (n : Nat),
      ((m.allocate rid n).1).request_blocks = ((m.allocate rid n).1).block_table := by
    intro rid n
    unfold KVCacheManager.allocate
    rcases halloc : m.allocator.allocate n with ⟨alloc', ids?⟩
    cases ids? with
    | none => simpa using h
    | some ids => simp [h]
  cases op with
  | alloc rid n => exact key rid n
  | grow rid n => exact key rid n
  | release rid =>
    simp only [applyMgrOp, KVCacheManager.free]
    cases hl : lookupA rid m.request_blocks with
    | some ids =>
      simp only [hl]
      rw [h]
    | none =>
      simp only [hl]
      rw [removeA_of_lookupA_none rid m.block_table (h ▸ hl)]
      exact h

theorem runMgrOps_maps_eq : ∀ (ops : List MgrOp) (m : KVCacheManager),
    m.request_blocks = m.block_table →
    (runMgrOps m ops).request_blocks = (runMgrOps m ops).block_table := by
  intro ops
  induction ops with
  | nil => intro m h; simpa [runMgrOps] using h
  | cons op rest ih =>
    intro m h
    simpa [runMgrOps] using ih (applyMgrOp m op) (applyMgrOp_maps_eq m op h)

/-! ## Claim theorems -/

/-- C1 (counterexample): immediately after `schedule` returns, the request
`r1` freshly admitted by Phase 2 has `prefill_complete = true` although
`num_tokens_processed = 0 < 20 = total_prompt_tokens`, so the claimed
biconditional `prefill_complete ⇔ tokens_processed ≥ total_prompt_tokens`
fails at this concrete state. -/
theorem C1_counterexample :
    (lookupA ("r1" : String) ((s0.schedule kv0).2.1).running).map
        (fun r => (r.prefill_complete, r.num_tokens_processed)) = some (true, 0)
    ∧ md1.total_prompt_tokens = 20
    ∧ ¬ ((20 : Nat) ≤ 0) := by decide

/-- C1 (amended): after `update_after_step` on a running request whose
metadata is present, the new `num_tokens_processed` is the old value plus
the reported delta, and `prefill_complete` is true iff the updated token
count has reached `total_prompt_tokens` or the flag was already true
before the call.  (At admission the flag instead anticipates the
scheduled chunk: it equals `scheduled num_tokens ≥ total_prompt_tokens`
while `num_tokens_processed` is still 0, so the unconditional
biconditional of the claim fails there.) -/
theorem C1_update_prefill_flag (s : Scheduler) (rid : RequestId) (tp tg : Nat)
    (nb : List BlockId) (r r' : RunningRequest) (md : RequestMetadata)
    (hr : lookupA rid s.running = some r)
    (hm : lookupA rid s.requests = some md)
    (hr' : lookupA rid (s.update_after_step rid tp tg nb).running = some r') :
    r'.num_tokens_processed = r.num_tokens_processed + tp
    ∧ (r'.prefill_complete = true ↔
        (md.total_prompt_tokens ≤ r'.num_tokens_processed ∨ r.prefill_complete = true)) := by
  have main : lookupA rid (s.update_after_step rid tp tg nb).running
      = some (if md.total_prompt_tokens ≤ r.num_tokens_processed + tp then
          { r with num_tokens_processed := r.num_tokens_processed + tp
                   num_tokens_generated := r.num_tokens_generated + tg
                   block_ids := r.block_ids ++ nb
                   prefill_complete := true }
        else
          { r with num_tokens_processed := r.num_tokens_processed + tp
                   num_tokens_generated := r.num_tokens_generated + tg
                   block_ids := r.block_ids ++ nb }) := by
    simp only [Scheduler.update_after_step, hr, hm]
    split
    · exact lookupA_updateA rid _ s.running r hr
    · exact lookupA_updateA rid _ s.running r hr
  rw [main] at hr'
  injection hr' with hx
  by_cases hle : md.total_prompt_tokens ≤ r.num_tokens_processed + tp
  · rw [if_pos hle] at hx
    subst hx
    refine ⟨rfl, ?_⟩
    simpa using Or.inl hle
  · rw [if_neg hle] at hx
    subst hx
    refine ⟨rfl, ?_⟩
    simp only []
    constructor
    · intro hpc; exact Or.inr hpc
    · intro hor
      rcases hor with hcontra | hpc
      · exact absurd hcontra hle
      · exact hpc

/-- C1 (witness): the amended statement applied to the concrete scheduler
`s4`, reporting 1 processed and 1 generated token and a new block for the
running request `d1`. -/
theorem C1_witness :
    rUpd.num_tokens_processed = r4.num_tokens_processed + 1
    ∧ (rUpd.prefill_complete = true ↔
        (md4.total_prompt_tokens ≤ rUpd.num_tokens_processed ∨ r4.prefill_complete = true)) :=
  C1_update_prefill_flag s4 ("d1" : String) 1 1 [1] r4 rUpd md4
    (by decide) (by decide) (by decide)

/-- C2: the scheduler's `blocks_needed_for_tokens` hard-codes a block
size of 16, so for a configured `block_size = 4` and 5 tokens it answers
1 block where the cache manager's `blocks_for_tokens` answers 2 — the two
do not agree for every configuration. -/
theorem C2_hardcoded_block_size :
    blocksNeededForTokens 5 = 1
    ∧ cfgBS4.blocks_for_tokens 5 = 2
    ∧ blocksNeededForTokens 5 ≠ cfgBS4.blocks_for_tokens 5 := by decide

/-- C3: for every call to `schedule`, the sum of `num_tokens` over the
decode and prefill entries of the result equals `total_tokens`, and that
total never exceeds `max_tokens_per_step`. -/
theorem C3_schedule_token_budget (s : Scheduler) (kv : KVCacheManager) :
    sumNumTokens ((s.schedule kv).1.decode_requests ++ (s.schedule kv).1.prefill_requests)
      = (s.schedule kv).1.total_tokens
    ∧ (s.schedule kv).1.total_tokens ≤ s.config.max_tokens_per_step := by
  obtain ⟨p1a, p1b, p1c⟩ := phase1_spec kv s.running ScheduleResult.empty
    s.config.max_tokens_per_step s.config.max_batch_size
  obtain ⟨p2a, p2b, p2c⟩ := phase2_spec s.config s.requests s.waiting s.running kv
    (phase1 kv s.running ScheduleResult.empty
      s.config.max_tokens_per_step s.config.max_batch_size).1
    (phase1 kv s.running ScheduleResult.empty
      s.config.max_tokens_per_step s.config.max_batch_size).2.1
    (phase1 kv s.running ScheduleResult.empty
      s.config.max_tokens_per_step s.config.max_batch_size).2.2
  set P1 := phase1 kv s.running ScheduleResult.empty
    s.config.max_tokens_per_step s.config.max_batch_size with hP1
  set P2 := phase2 s.config s.requests s.waiting s.running kv P1.1 P1.2.1 P1.2.2 with hP2
  have hres : (s.schedule kv).1 = P2.1 := rfl
  have hnil : sumNumTokens ([] : List ScheduledRequest) = 0 := rfl
  have he1 : ScheduleResult.empty.total_tokens = 0 := rfl
  have he2 : ScheduleResult.empty.decode_requests = ([] : List ScheduledRequest) := rfl
  have he3 : ScheduleResult.empty.prefill_requests = ([] : List ScheduledRequest) := rfl
  rw [he1] at p1a
  rw [he1, he2, hnil] at p1c
  rw [he3] at p1b
  rw [p1b, hnil] at p2c
  constructor
  · rw [hres, sumNumTokens_append, p2b]
    omega
  · rw [hres]
    omega

/-- C4 (counterexample): with the prefill-complete running request `d1`
at a block boundary (`16` tokens processed, one block held, so two blocks
are required for the next token) and seven blocks free, `schedule` emits
the decode with the *old* one-block table and leaves the cache manager
untouched: no allocation is attempted on the success path, so the emitted
block table does not cover the required count. -/
theorem C4_counterexample :
    (s4.schedule kv4).1.decode_requests
        = [{ request_id := ("d1" : String), sequence_id := 0, num_tokens := 1,
             is_prefill := false, block_ids := [0], num_computed_tokens := 16 }]
    ∧ blocksNeededForTokens (r4.num_tokens_processed + 1) = 2
    ∧ kv4.can_allocate 1 = true
    ∧ (s4.schedule kv4).2.2 = kv4
    ∧ ¬ (2 ≤ ([0] : List BlockId).length) := by decide

/-- C4 (amended): in Phase 1 the scheduler only *checks* whether the
missing blocks could be allocated.  With budgets large enough to visit
every running request, the emitted decodes are exactly the
prefill-complete requests for which either no extra block is required or
`can_allocate` succeeds, each carrying its existing (unextended) block
table; and a request present in the running map before `schedule` is
still mapped to the same unchanged state afterwards (skipped requests in
particular make no progress and are not removed). -/
theorem C4_phase1_check_only :
    (∀ (kv : KVCacheManager) (l : List (RequestId × RunningRequest)) (res : ScheduleResult)
        (budget batch : Nat), l.length ≤ budget → l.length ≤ batch →
      (phase1 kv l res budget batch).1.decode_requests
        = res.decode_requests ++
            (l.filter (fun p => decodeEmitCond kv p.2)).map (fun p => mkDecodeScheduled p.1 p.2))
    ∧ (∀ (s : Scheduler) (kv : KVCacheManager) (id : RequestId) (r : RunningRequest),
        lookupA id s.running = some r →
        lookupA id ((s.schedule kv).2.1).running = some r) := by
  constructor
  · exact fun kv l res budget batch hb hc => phase1_decodes kv l res budget batch hb hc
  · intro s kv id r h
    have key := phase2_preserves_running s.config s.requests s.waiting s.running kv
      (phase1 kv s.running ScheduleResult.empty
        s.config.max_tokens_per_step s.config.max_batch_size).1
      (phase1 kv s.running ScheduleResult.empty
        s.config.max_tokens_per_step s.config.max_batch_size).2.1
      (phase1 kv s.running ScheduleResult.empty
        s.config.max_tokens_per_step s.config.max_batch_size).2.2
      id r h
    exact key

/-- C4 (witness): the amended statement applied to the one-request
running map of `s4` / `kv4`. -/
theorem C4_witness :
    (phase1 kv4 [(("d1" : String), r4)] ScheduleResult.empty 512 8).1.decode_requests
        = ScheduleResult.empty.decode_requests ++
            (([(("d1" : String), r4)].filter (fun p => decodeEmitCond kv4 p.2)).map
              (fun p => mkDecodeScheduled p.1 p.2))
    ∧ lookupA ("d1" : String) ((s4.schedule kv4).2.1).running = some r4 :=
  ⟨C4_phase1_check_only.1 kv4 [(("d1" : String), r4)] ScheduleResult.empty 512 8
      (by decide) (by decide),
    C4_phase1_check_only.2 s4 kv4 ("d1" : String) r4 (by decide)⟩

/-- C5 (counterexample): two heap entries with equal priority and equal
arrival time but distinct request ids compare `Equal` — the comparator
never consults the request id, so the claimed id tie-break (and with it
the claimed strict total order on distinct requests) does not exist. -/
theorem C5_counterexample :
    PriorityRequest.cmp pa pb = Ordering.eq
    ∧ pa.request_id ≠ pb.request_id
    ∧ pa ≠ pb := by decide

/-- C5 (amended): the priority comparator orders entries by priority
descending, then arrival time ascending (`gt` means popped first), and
returns `eq` exactly when both priority and arrival time coincide — the
request id is not used, so the pop order among such ties is unspecified. -/
theorem C5_cmp_spec (a b : PriorityRequest) :
    (PriorityRequest.cmp a b = Ordering.gt ↔
      (b.priority < a.priority ∨ (a.priority = b.priority ∧ a.arrival_time < b.arrival_time)))
    ∧ (PriorityRequest.cmp a b = Ordering.eq ↔
      (a.priority = b.priority ∧ a.arrival_time = b.arrival_time)) := by
  unfold PriorityRequest.cmp
  rcases lt_trichotomy a.priority b.priority with hp | hp | hp
  · rw [compare_lt_iff_lt.mpr hp]
    show (Ordering.lt = Ordering.gt ↔
        (b.priority < a.priority ∨ (a.priority = b.priority ∧ a.arrival_time < b.arrival_time)))
      ∧ (Ordering.lt = Ordering.eq ↔
        (a.priority = b.priority ∧ a.arrival_time = b.arrival_time))
    refine ⟨⟨fun hh => Ordering.noConfusion hh, fun hh => ?_⟩,
            ⟨fun hh => Ordering.noConfusion hh, fun hh => ?_⟩⟩
    · exfalso
      rcases hh with hh | ⟨hh, _⟩
      · exact absurd hh (lt_asymm hp)
      · exact absurd hh (ne_of_lt hp)
    · exact absurd hh.1 (ne_of_lt hp)
  · rw [compare_eq_iff_eq.mpr hp]
    show (compare b.arrival_time a.arrival_time = Ordering.gt ↔
        (b.priority < a.priority ∨ (a.priority = b.priority ∧ a.arrival_time < b.arrival_time)))
      ∧ (compare b.arrival_time a.arrival_time = Ordering.eq ↔
        (a.priority = b.priority ∧ a.arrival_time = b.arrival_time))
    constructor
    · constructor
      · intro hh
        exact Or.inr ⟨hp, compare_gt_iff_gt.mp hh⟩
      · intro hh
        rcases hh with hh | ⟨_, hh⟩
        · exact absurd hh (by rw [hp]; exact lt_irrefl _)
        · exact compare_gt_iff_gt.mpr hh
    · constructor
      · intro hh
        exact ⟨hp, (compare_eq_iff_eq.mp hh).symm⟩
      · intro hh
        exact compare_eq_iff_eq.mpr hh.2.symm
  · rw [compare_gt_iff_gt.mpr hp]
    show (Ordering.gt = Ordering.gt ↔
        (b.priority < a.priority ∨ (a.priority = b.priority ∧ a.arrival_time < b.arrival_time)))
      ∧ (Ordering.gt = Ordering.eq ↔
        (a.priority = b.priority ∧ a.arrival_time = b.arrival_time))
    refine ⟨⟨fun _ => Or.inl hp, fun _ => rfl⟩,
            ⟨fun hh => Ordering.noConfusion hh, fun hh => ?_⟩⟩
    exact absurd hh.1 (Ne.symm (ne_of_lt hp))

/-- C6 (counterexample): from the reachable allocator state obtained by
constructing a one-block pool and calling `free(0)` once, the free list
holds the id 0 twice, so `allocate(2)` succeeds and returns `[0, 0]` —
two ids that are *not* distinct — refuting the claim as stated over every
allocator state. -/
theorem C6_counterexample :
    allocAfterFree = (BlockAllocator.new cfg1).free 0
    ∧ 2 ≤ allocAfterFree.free_list.length
    ∧ (allocAfterFree.allocate 2).2 = some [0, 0]
    ∧ ¬ ([0, 0] : List BlockId).Nodup := by decide

/-- C6 (amended): `allocate` is all-or-nothing — with fewer than `n` free
ids it returns `none` and the state is untouched; otherwise it returns
exactly the first `n` ids of the free pool (removed from it), bumps the
allocated count by `n`, and resets every returned block's metadata to
occupancy 0, refcount 1, cleared fingerprint (given in-range ids, as in
every state the allocator itself constructs).  The returned ids are
pairwise distinct whenever the free list holds no duplicates — but not in
general, because the double-free bug can corrupt the free list. -/
theorem C6_allocate_spec (a : BlockAllocator) (n : Nat) :
    (a.free_list.length < n → a.allocate n = (a, none))
    ∧ (n ≤ a.free_list.length →
        (a.allocate n).2 = some (a.free_list.take n)
        ∧ (a.allocate n).1.free_list = a.free_list.drop n
        ∧ (a.allocate n).1.num_allocated = a.num_allocated + n
        ∧ (a.free_list.Nodup → (a.free_list.take n).Nodup)
        ∧ ((∀ id ∈ a.free_list, id < a.blocks.length) →
            ∀ id ∈ a.free_list.take n,
              isReset ((a.allocate n).1.blocks.getD id default))) := by
  constructor
  · intro h
    unfold BlockAllocator.allocate
    rw [if_neg (by simp [BlockAllocator.can_allocate]; omega)]
  · intro h
    obtain ⟨l1, l2, l3, l4⟩ := allocLoop_spec n a [] h
    have hall : a.allocate n = ((allocLoop n a []).1, some (allocLoop n a []).2) := by
      unfold BlockAllocator.allocate
      rw [if_pos (by simp [BlockAllocator.can_allocate, h])]
    rw [hall]
    simp only [List.nil_append] at l1
    refine ⟨by rw [l1], by rw [l2], by rw [l3], ?_, ?_⟩
    · intro hnd
      exact hnd.sublist (List.take_sublist n a.free_list)
    · intro hrange id hid
      rw [l4]
      exact resetBlocks_isReset (a.free_list.take n) a.blocks
        (fun x hx => hrange x (List.take_subset n a.free_list hx)) id hid

/-- C6 (witness): the amended statement applied to a fresh eight-block
allocator with `n = 2` (success conjuncts) and `n = 20` (failure
conjunct). -/
theorem C6_witness :
    ((BlockAllocator.new cfg8).allocate 2).2
        = some ((BlockAllocator.new cfg8).free_list.take 2)
    ∧ ((BlockAllocator.new cfg8).allocate 2).1.free_list
        = (BlockAllocator.new cfg8).free_list.drop 2
    ∧ ((BlockAllocator.new cfg8).allocate 2).1.num_allocated
        = (BlockAllocator.new cfg8).num_allocated + 2
    ∧ ((BlockAllocator.new cfg8).free_list.take 2).Nodup
    ∧ isReset (((BlockAllocator.new cfg8).allocate 2).1.blocks.getD 0 default)
    ∧ (BlockAllocator.new cfg8).allocate 20 = (BlockAllocator.new cfg8, none) := by
  have h2 := (C6_allocate_spec (BlockAllocator.new cfg8) 2).2 (by decide)
  have h20 := (C6_allocate_spec (BlockAllocator.new cfg8) 20).1 (by decide)
  exact ⟨h2.1, h2.2.1, h2.2.2.1, h2.2.2.2.1 (by decide),
    h2.2.2.2.2 (by decide) 0 (by decide), h20⟩

/-- C7: the code breaks `free_count + allocated_count = max_blocks`.  A
fresh one-block allocator satisfies it; a single `free(0)` — a free of an
id that is already in the free pool, explicitly covered by the claim —
pushes the id again, giving free count 2 with allocated count 0, so the
sum is 2 ≠ 1 = `max_blocks`. -/
theorem C7_free_breaks_invariant :
    allocFresh1.free_list.length + allocFresh1.num_allocated = cfg1.max_blocks
    ∧ allocAfterFree = allocFresh1.free 0
    ∧ allocAfterFree.free_list.length + allocAfterFree.num_allocated = 2
    ∧ cfg1.max_blocks = 1
    ∧ allocAfterFree.free_list.length + allocAfterFree.num_allocated ≠ cfg1.max_blocks := by
  decide

/-- C10: calling `free` on block 0 whose reference count is already 0
(after one earlier `free(0)` on the fresh one-block allocator) does *not*
leave the allocator unchanged: `saturating_sub` keeps the refcount at 0,
the `ref_count == 0` test then passes again, and the id is appended to
the free list a further time (`[0, 0]` becomes `[0, 0, 0]`). -/
theorem C10_double_free_changes_state :
    (allocAfterFree.blocks.getD 0 default).ref_count = 0
    ∧ allocAfterFree.free_list = [0, 0]
    ∧ (allocAfterFree.free 0).free_list = [0, 0, 0]
    ∧ allocAfterFree.free 0 ≠ allocAfterFree := by decide

/-- C8: `abort_request` returns true iff the request was running at the
time of the call; a second call with the same id returns false and leaves
both the scheduler and the cache manager exactly as the first call left
them; and calling it on an id that is in no queue and has no metadata is
a no-op returning false. -/
theorem C8_abort_spec (s : Scheduler) (kv : KVCacheManager) (rid : RequestId) :
    ((s.abort_request rid kv).1 = true ↔ (lookupA rid s.running).isSome = true)
    ∧ ((s.abort_request rid kv).2.1.abort_request rid (s.abort_request rid kv).2.2).1 = false
    ∧ ((s.abort_request rid kv).2.1.abort_request rid (s.abort_request rid kv).2.2).2.1
        = (s.abort_request rid kv).2.1
    ∧ ((s.abort_request rid kv).2.1.abort_request rid (s.abort_request rid kv).2.2).2.2
        = (s.abort_request rid kv).2.2
    ∧ (rid ∉ s.waiting → lookupA rid s.running = none → lookupA rid s.requests = none →
        (s.abort_request rid kv).1 = false
        ∧ (s.abort_request rid kv).2.1 = s
        ∧ (s.abort_request rid kv).2.2 = kv) := by
  have habort_none : ∀ (t : Scheduler) (k : KVCacheManager),
      rid ∉ t.waiting → lookupA rid t.running = none → lookupA rid t.requests = none →
      t.abort_request rid k = (false, t, k) := by
    intro t k hw hr hq
    simp only [Scheduler.abort_request, hr]
    rw [filter_ne_of_not_mem rid t.waiting hw, removeA_of_lookupA_none rid t.requests hq]
  cases hrun : lookupA rid s.running with
  | none =>
    have hfirst : s.abort_request rid kv
        = (false,
            { s with
              waiting := s.waiting.filter (fun id => decide (id ≠ rid))
              requests := removeA rid s.requests },
            kv) := by
      simp only [Scheduler.abort_request, hrun]
    have hw1 : rid ∉ (s.abort_request rid kv).2.1.waiting := by
      rw [hfirst]
      exact not_mem_filter_ne rid s.waiting
    have hr1 : lookupA rid (s.abort_request rid kv).2.1.running = none := by
      rw [hfirst]
      exact hrun
    have hq1 : lookupA rid (s.abort_request rid kv).2.1.requests = none := by
      rw [hfirst]
      exact lookupA_removeA rid s.requests
    have hsecond := habort_none (s.abort_request rid kv).2.1 (s.abort_request rid kv).2.2
      hw1 hr1 hq1
    refine ⟨by rw [hfirst]; simp [hrun], by rw [hsecond], by rw [hsecond], by rw [hsecond], ?_⟩
    intro hw hr hq
    rw [hfirst]
    refine ⟨rfl, ?_, rfl⟩
    rw [filter_ne_of_not_mem rid s.waiting hw, removeA_of_lookupA_none rid s.requests hq]
  | some r =>
    have hfirst : s.abort_request rid kv
        = (true,
            { s with
              waiting := s.waiting.filter (fun id => decide (id ≠ rid))
              running := removeA rid s.running
              requests := removeA rid s.requests },
            kv.free r.request_id) := by
      simp only [Scheduler.abort_request, hrun]
    have hw1 : rid ∉ (s.abort_request rid kv).2.1.waiting := by
      rw [hfirst]
      exact not_mem_filter_ne rid s.waiting
    have hr1 : lookupA rid (s.abort_request rid kv).2.1.running = none := by
      rw [hfirst]
      exact lookupA_removeA rid s.running
    have hq1 : lookupA rid (s.abort_request rid kv).2.1.requests = none := by
      rw [hfirst]
      exact lookupA_removeA rid s.requests
    have hsecond := habort_none (s.abort_request rid kv).2.1 (s.abort_request rid kv).2.2
      hw1 hr1 hq1
    refine ⟨by rw [hfirst]; simp [hrun], by rw [hsecond], by rw [hsecond], by rw [hsecond], ?_⟩
    intro _ hr _
    exact Option.noConfusion hr

/-- C8 (witness): aborting the never-admitted id `zz` on `s4` is a no-op
returning false, and a second abort of the running id `d1` returns
false. -/
theorem C8_witness :
    (s4.abort_request ("zz" : String) kv4).1 = false
    ∧ (s4.abort_request ("zz" : String) kv4).2.1 = s4
    ∧ (s4.abort_request ("zz" : String) kv4).2.2 = kv4
    ∧ ((s4.abort_request ("d1" : String) kv4).2.1.abort_request ("d1" : String)
        (s4.abort_request ("d1" : String) kv4).2.2).1 = false
    ∧ ((s4.abort_request ("d1" : String) kv4).1 = true ↔
        (lookupA ("d1" : String) s4.running).isSome = true) := by
  have h1 := C8_abort_spec s4 kv4 ("zz" : String)
  have h2 := C8_abort_spec s4 kv4 ("d1" : String)
  have h1' := h1.2.2.2.2 (by decide) (by decide) (by decide)
  exact ⟨h1'.1, h1'.2.1, h1'.2.2, h2.2.1, h2.1⟩

/-- C9: starting from a freshly constructed cache manager, after every
sequence of `allocate` / `extend` / `free` operations the `request_blocks`
mapping and the `block_table` mapping are identical — both are created,
extended and removed with exactly the same keys and id sequences. -/
theorem C9_request_blocks_eq_block_table (cfg : KVCacheConfig) (ops : List MgrOp) :
    (runMgrOps (KVCacheManager.new cfg) ops).request_blocks
      = (runMgrOps (KVCacheManager.new cfg) ops).block_table :=
  runMgrOps_maps_eq ops (KVCacheManager.new cfg) rfl
